import Mathlib

/-!
Verification development for a small in-memory CRUD service managing car
records.  The Python source keeps a dictionary from string ids to car
records and exposes create / replace / merge / delete operations plus
read-only list and get.  We embed the data model and the operations
shallowly: the dictionary becomes an association list, `datetime` readings
become natural numbers supplied by the caller (the code reads the clock via
`datetime.utcnow()`), and uuid generation becomes rendering of a caller
supplied 128-bit value in the canonical hyphenated hex format used by
`str(uuid.uuid4())`.  Pydantic validation of a model becomes a boolean
check of the declared field constraints; constructing a `Car(...)` value,
which pydantic validates and which can therefore raise, becomes a function
returning `Option Car`.
-/

/-- Field constraint for `make`/`model` (min_length=1, max_length=50) and
`color` (min_length=1, max_length=30) from `app/models/car.py`. -/
def validStrB (maxLen : Nat) (s : String) : Bool :=
  decide (1 ≤ s.length) && decide (s.length ≤ maxLen)

/-- Field constraint for `year` (ge=1900, le=2030). -/
def validYearB (y : Int) : Bool :=
  decide (1900 ≤ y) && decide (y ≤ 2030)

/-- Field constraint for `price` (gt=0).  The float is only ever compared
and stored, never computed with, so we model it as a rational. -/
def validPriceB (p : ℚ) : Bool :=
  decide (0 < p)

/-- The conjunction of the `CarBase` field constraints
(`app/models/car.py`, lines 6-11). -/
def carFieldsValidB (mk md : String) (yr : Int) (cl : String) (pr : ℚ) : Bool :=
  validStrB 50 mk && validStrB 50 md && validYearB yr && validStrB 30 cl && validPriceB pr

/-- A stored car record (`Car` in `app/models/car.py`): the five mutable
fields plus id and the two timestamps. -/
structure Car where
  id : String
  make : String
  model : String
  year : Int
  color : String
  price : ℚ
  created_at : Nat
  updated_at : Nat
deriving DecidableEq

/-- A validated full input (`CarCreate` / `CarUpdate`): all five mutable
fields present. -/
structure CarInput where
  make : String
  model : String
  year : Int
  color : String
  price : ℚ
deriving DecidableEq

/-- Parse-time validity of a full body, as pydantic checks it before the
handler runs. -/
def CarInput.validB (d : CarInput) : Bool :=
  carFieldsValidB d.make d.model d.year d.color d.price

/-- A `CarPartialUpdate` body.  Each field is tri-state, mirroring
pydantic's distinction between an omitted field and an explicitly provided
one: `none` = absent from the body (unset), `some none` = present with an
explicit null, `some (some v)` = present with value `v`. -/
structure CarPartialUpdate where
  make : Option (Option String)
  model : Option (Option String)
  year : Option (Option Int)
  color : Option (Option String)
  price : Option (Option ℚ)
deriving DecidableEq

/-- Parse-time validity of one optional field of `CarPartialUpdate`: a
provided non-null value must satisfy its constraint; an omitted field or an
explicit null passes (the field types are `Optional[...]`, so pydantic
accepts null). -/
def optFieldValid (f : Option (Option α)) (q : α → Bool) : Bool :=
  match f with
  | some (some v) => q v
  | _ => true

/-- Parse-time validity of a `CarPartialUpdate` body. -/
def CarPartialUpdate.validB (p : CarPartialUpdate) : Bool :=
  optFieldValid p.make (validStrB 50) && optFieldValid p.model (validStrB 50) &&
    optFieldValid p.year validYearB && optFieldValid p.color (validStrB 30) &&
    optFieldValid p.price validPriceB

/-- `not car_data.model_dump(exclude_unset=True)`: the dump is empty iff
every field was unset. -/
def CarPartialUpdate.isEmpty (p : CarPartialUpdate) : Bool :=
  p.make.isNone && p.model.isNone && p.year.isNone && p.color.isNone && p.price.isNone

/-- Whether some field is present with an explicit null. -/
def isExplicitNull : Option (Option α) → Bool
  | some none => true
  | _ => false

/-- Whether the body carries at least one explicit null. -/
def CarPartialUpdate.hasNull (p : CarPartialUpdate) : Bool :=
  isExplicitNull p.make || isExplicitNull p.model || isExplicitNull p.year ||
    isExplicitNull p.color || isExplicitNull p.price

/-- `update_data.get(key, existing_value)`: the key is in the dump iff the
field was set, and then maps to the provided value (possibly null);
otherwise the existing (non-null) value is used. -/
def providedOr (f : Option (Option α)) (old : α) : Option α :=
  match f with
  | some v => v
  | none => some old

/-- Constructing `Car(...)`: pydantic validates the arguments; a null where
a required field is expected, or a constraint violation, raises
`ValidationError` (modelled as `none`). -/
def mkCar (id0 : String) (mk0 md0 : Option String) (yr0 : Option Int)
    (cl0 : Option String) (pr0 : Option ℚ) (created0 updated0 : Nat) : Option Car :=
  match mk0, md0, yr0, cl0, pr0 with
  | some mk, some md, some yr, some cl, some pr =>
    if carFieldsValidB mk md yr cl pr then
      some ⟨id0, mk, md, yr, cl, pr, created0, updated0⟩
    else none
  | _, _, _, _, _ => none

/-- The in-memory store `Dict[str, Car]`, as an association list in
insertion order. -/
abbrev DB := List (String × Car)

/-- Dictionary lookup `d.get(k)` / `k in d`. -/
def dbGet : DB → String → Option Car
  | [], _ => none
  | (k, c) :: rest, k0 => if k = k0 then some c else dbGet rest k0

/-- Dictionary write `d[k] = c`: replaces in place if the key exists,
otherwise appends (python dicts preserve insertion order). -/
def dbSet : DB → String → Car → DB
  | [], k0, c0 => [(k0, c0)]
  | (k, c) :: rest, k0, c0 =>
    if k = k0 then (k0, c0) :: rest else (k, c) :: dbSet rest k0 c0

/-- Dictionary deletion `del d[k]`. -/
def dbDel : DB → String → DB
  | [], _ => []
  | (k, c) :: rest, k0 => if k = k0 then rest else (k, c) :: dbDel rest k0

/- ### uuid rendering

`str(uuid.uuid4())` renders a 128-bit value as 32 lowercase hex digits in
8-4-4-4-12 hyphenated groups.  We embed the rendering of the uuid's integer
value; the randomness (and uuid4's fixed version bits) live in the caller
supplied value. -/

/-- One lowercase hex digit. -/
def hexDigit (n : Nat) : Char :=
  if n < 10 then Char.ofNat (48 + n) else Char.ofNat (87 + n)

/-- Numeric value of a lowercase hex digit. -/
def hexVal (c : Char) : Nat :=
  if 97 ≤ c.toNat then c.toNat - 87 else c.toNat - 48

/-- Fixed-width big-endian hex rendering. -/
def hexChars : Nat → Nat → List Char
  | _, 0 => []
  | n, w + 1 => hexChars (n / 16) w ++ [hexDigit (n % 16)]

/-- Insert hyphens in the canonical 8-4-4-4-12 positions. -/
def uuidGroups (h : List Char) : List Char :=
  h.take 8 ++ '-' :: ((h.drop 8).take 4 ++ '-' :: ((h.drop 12).take 4 ++ '-' :: ((h.drop 16).take 4 ++ '-' :: h.drop 20)))

/-- `str(uuid.UUID(int = n))`: canonical hyphenated rendering of the low
128 bits of `n`. -/
def uuidStr (n : Nat) : String :=
  ⟨uuidGroups (hexChars (n % 2 ^ 128) 32)⟩

namespace CarService

/-- `CarService.get_all_cars` (`list(self._cars_db.values())`). -/
def get_all_cars (s : DB) : List Car :=
  s.map Prod.snd

/-- `CarService.get_car_by_id` (`self._cars_db.get(car_id)`). -/
def get_car_by_id (s : DB) (car_id : String) : Option Car :=
  dbGet s car_id

/-- `CarService.create_car`: generate the id from the supplied 128-bit
value `rnd`, read the clock as `now`, build the record and store it.  The
`none` outcome is an exception escaping from `Car(...)`; the store is not
touched in that case. -/
def create_car (s : DB) (rnd now : Nat) (d : CarInput) : Option Car × DB :=
  let car_id := uuidStr rnd
  match mkCar car_id (some d.make) (some d.model) (some d.year) (some d.color) (some d.price) now now with
  | some c => (some c, dbSet s car_id c)
  | none => (none, s)

/-- Result of `CarService.update_car`: python returns `None` (not found)
or the new record, and `Car(...)` can raise `ValidationError`. -/
inductive ReplaceResult where
  | notFound
  | validationError
  | ok (c : Car)
deriving DecidableEq

/-- `CarService.update_car`: full replace preserving `created_at`. -/
def update_car (s : DB) (car_id : String) (now : Nat) (d : CarInput) : ReplaceResult × DB :=
  match dbGet s car_id with
  | none => (.notFound, s)
  | some existing =>
    match mkCar car_id (some d.make) (some d.model) (some d.year) (some d.color) (some d.price)
        existing.created_at now with
    | some c => (.ok c, dbSet s car_id c)
    | none => (.validationError, s)

/-- Result of `CarService.partial_update_car`: `None` (not found), the
`ValueError("No fields provided for update")`, a `ValidationError` raised
by `Car(...)`, or the new record. -/
inductive MergeResult where
  | notFound
  | emptyUpdate
  | validationError
  | ok (c : Car)
deriving DecidableEq

/-- The new record carried by a successful merge, if any. -/
def MergeResult.car : MergeResult → Option Car
  | .ok c => some c
  | .notFound => none
  | .emptyUpdate => none
  | .validationError => none

/-- The new record carried by a successful replace, if any. -/
def ReplaceResult.car : ReplaceResult → Option Car
  | .ok c => some c
  | .notFound => none
  | .validationError => none

/-- `CarService.partial_update_car`: the id-absence check comes first, then
the empty-dump check, then the record is rebuilt taking each provided field
from the body and each omitted field from the existing record. -/
def partial_update_car (s : DB) (car_id : String) (now : Nat) (p : CarPartialUpdate) :
    MergeResult × DB :=
  match dbGet s car_id with
  | none => (.notFound, s)
  | some existing =>
    if p.isEmpty then (.emptyUpdate, s)
    else
      match mkCar car_id (providedOr p.make existing.make) (providedOr p.model existing.model)
          (providedOr p.year existing.year) (providedOr p.color existing.color)
          (providedOr p.price existing.price) existing.created_at now with
      | some c => (.ok c, dbSet s car_id c)
      | none => (.validationError, s)

/-- `CarService.delete_car`. -/
def delete_car (s : DB) (car_id : String) : Bool × DB :=
  match dbGet s car_id with
  | some _ => (true, dbDel s car_id)
  | none => (false, s)

end CarService

/- ### Dictionary lemmas -/

theorem dbGet_mem {s : DB} {k : String} {c : Car} (h : dbGet s k = some c) : (k, c) ∈ s := by
  induction s with
  | nil => simp [dbGet] at h
  | cons kc rest ih =>
    obtain ⟨k1, c1⟩ := kc
    simp only [dbGet] at h
    split at h
    · rename_i hk
      cases h
      subst hk
      exact List.mem_cons_self _ _
    · exact List.mem_cons_of_mem _ (ih h)

theorem mem_dbSet {s : DB} {k k2 : String} {c c2 : Car}
    (h : (k2, c2) ∈ dbSet s k c) : (k2 = k ∧ c2 = c) ∨ (k2, c2) ∈ s := by
  induction s with
  | nil =>
    simp [dbSet] at h
    exact Or.inl h
  | cons kc rest ih =>
    obtain ⟨k1, c1⟩ := kc
    simp only [dbSet] at h
    split at h
    · rcases List.mem_cons.mp h with h1 | h1
      · cases h1; exact Or.inl ⟨rfl, rfl⟩
      · exact Or.inr (List.mem_cons_of_mem _ h1)
    · rcases List.mem_cons.mp h with h1 | h1
      · exact Or.inr (by rw [h1]; exact List.mem_cons_self _ _)
      · rcases ih h1 with h2 | h2
        · exact Or.inl h2
        · exact Or.inr (List.mem_cons_of_mem _ h2)

theorem mem_dbDel {s : DB} {k : String} {kc : String × Car}
    (h : kc ∈ dbDel s k) : kc ∈ s := by
  induction s with
  | nil => simp [dbDel] at h
  | cons kc1 rest ih =>
    obtain ⟨k1, c1⟩ := kc1
    simp only [dbDel] at h
    split at h
    · exact List.mem_cons_of_mem _ h
    · rcases List.mem_cons.mp h with h1 | h1
      · rw [h1]; exact List.mem_cons_self _ _
      · exact List.mem_cons_of_mem _ (ih h1)

theorem dbGet_dbSet_self (s : DB) (k : String) (c : Car) :
    dbGet (dbSet s k c) k = some c := by
  induction s with
  | nil => simp [dbSet, dbGet]
  | cons kc rest ih =>
    obtain ⟨k1, c1⟩ := kc
    simp only [dbSet]
    split
    · simp [dbGet]
    · rename_i hk
      simp only [dbGet]
      rw [if_neg hk]
      exact ih

theorem dbGet_none_of_not_mem_keys {s : DB} {k : String}
    (h : k ∉ s.map Prod.fst) : dbGet s k = none := by
  induction s with
  | nil => rfl
  | cons kc rest ih =>
    obtain ⟨k1, c1⟩ := kc
    simp only [List.map_cons, List.mem_cons] at h
    push_neg at h
    simp only [dbGet]
    rw [if_neg (by exact fun hk => h.1 hk.symm)]
    exact ih h.2

theorem dbGet_dbDel_self {s : DB} {k : String}
    (hnd : (s.map Prod.fst).Nodup) : dbGet (dbDel s k) k = none := by
  induction s with
  | nil => rfl
  | cons kc rest ih =>
    obtain ⟨k1, c1⟩ := kc
    simp only [List.map_cons, List.nodup_cons] at hnd
    simp only [dbDel]
    split
    · rename_i hk
      subst hk
      exact dbGet_none_of_not_mem_keys hnd.1
    · rename_i hk
      simp only [dbGet]
      rw [if_neg hk]
      exact ih hnd.2

/- ### `mkCar` lemmas -/

theorem mkCar_some {id0 : String} {mk0 md0 : Option String} {yr0 : Option Int}
    {cl0 : Option String} {pr0 : Option ℚ} {ca ua : Nat} {c : Car}
    (h : mkCar id0 mk0 md0 yr0 cl0 pr0 ca ua = some c) :
    mk0 = some c.make ∧ md0 = some c.model ∧ yr0 = some c.year ∧ cl0 = some c.color ∧
      pr0 = some c.price ∧ c.id = id0 ∧ c.created_at = ca ∧ c.updated_at = ua ∧
      carFieldsValidB c.make c.model c.year c.color c.price = true := by
  cases mk0 with
  | none => simp [mkCar] at h
  | some mk => cases md0 with
    | none => simp [mkCar] at h
    | some md => cases yr0 with
      | none => simp [mkCar] at h
      | some yr => cases cl0 with
        | none => simp [mkCar] at h
        | some cl => cases pr0 with
          | none => simp [mkCar] at h
          | some pr =>
            simp only [mkCar] at h
            split at h
            · rename_i hv
              cases h
              exact ⟨rfl, rfl, rfl, rfl, rfl, rfl, rfl, rfl, hv⟩
            · cases h

theorem mkCar_all_some (id0 : String) (mk md : String) (yr : Int) (cl : String) (pr : ℚ)
    (ca ua : Nat) (hv : carFieldsValidB mk md yr cl pr = true) :
    mkCar id0 (some mk) (some md) (some yr) (some cl) (some pr) ca ua =
      some ⟨id0, mk, md, yr, cl, pr, ca, ua⟩ := by
  simp [mkCar, hv]

theorem mkCar_none_make (id0 : String) (md0 : Option String) (yr0 : Option Int)
    (cl0 : Option String) (pr0 : Option ℚ) (ca ua : Nat) :
    mkCar id0 none md0 yr0 cl0 pr0 ca ua = none := rfl

theorem mkCar_none_model (id0 : String) (mk0 : Option String) (yr0 : Option Int)
    (cl0 : Option String) (pr0 : Option ℚ) (ca ua : Nat) :
    mkCar id0 mk0 none yr0 cl0 pr0 ca ua = none := by
  cases mk0 <;> rfl

theorem mkCar_none_year (id0 : String) (mk0 md0 : Option String)
    (cl0 : Option String) (pr0 : Option ℚ) (ca ua : Nat) :
    mkCar id0 mk0 md0 none cl0 pr0 ca ua = none := by
  cases mk0 <;> cases md0 <;> rfl

theorem mkCar_none_color (id0 : String) (mk0 md0 : Option String) (yr0 : Option Int)
    (pr0 : Option ℚ) (ca ua : Nat) :
    mkCar id0 mk0 md0 yr0 none pr0 ca ua = none := by
  cases mk0 <;> cases md0 <;> cases yr0 <;> rfl

theorem mkCar_none_price (id0 : String) (mk0 md0 : Option String) (yr0 : Option Int)
    (cl0 : Option String) (ca ua : Nat) :
    mkCar id0 mk0 md0 yr0 cl0 none ca ua = none := by
  cases mk0 <;> cases md0 <;> cases yr0 <;> cases cl0 <;> rfl

/- ### uuid lemmas -/

theorem hexVal_hexDigit : ∀ d : Nat, d < 16 → hexVal (hexDigit d) = d := by decide

theorem hexDigit_ne_dash : ∀ d : Nat, d < 16 → hexDigit d ≠ '-' := by decide

theorem hexChars_length : ∀ (w n : Nat), (hexChars n w).length = w := by
  intro w
  induction w with
  | zero => intro n; rfl
  | succ w ih => intro n; simp [hexChars, ih]

theorem hexChars_no_dash : ∀ (w n : Nat), ∀ c ∈ hexChars n w, c ≠ '-' := by
  intro w
  induction w with
  | zero => intro n c hc; simp [hexChars] at hc
  | succ w ih =>
    intro n c hc
    simp only [hexChars, List.mem_append, List.mem_singleton] at hc
    rcases hc with hc | hc
    · exact ih _ c hc
    · subst hc
      exact hexDigit_ne_dash (n % 16) (Nat.mod_lt _ (by norm_num))

theorem hexChars_foldl : ∀ (w n a : Nat), n < 16 ^ w →
    (hexChars n w).foldl (fun acc c => 16 * acc + hexVal c) a = a * 16 ^ w + n := by
  intro w
  induction w with
  | zero =>
    intro n a hn
    have hz : n = 0 := by omega
    subst hz
    simp [hexChars]
  | succ w ih =>
    intro n a hn
    have hdiv : n / 16 < 16 ^ w := by
      rw [Nat.div_lt_iff_lt_mul (by norm_num : 0 < 16)]
      calc n < 16 ^ (w + 1) := hn
        _ = 16 ^ w * 16 := by rw [pow_succ]
    simp only [hexChars, List.foldl_append, List.foldl_cons, List.foldl_nil]
    rw [ih _ a hdiv, hexVal_hexDigit _ (Nat.mod_lt _ (by norm_num))]
    have hmod := Nat.div_add_mod n 16
    rw [pow_succ]
    calc 16 * (a * 16 ^ w + n / 16) + n % 16
        = a * (16 ^ w * 16) + (16 * (n / 16) + n % 16) := by ring
      _ = a * (16 ^ w * 16) + n := by rw [hmod]

theorem hexChars_inj {w n m : Nat} (hn : n < 16 ^ w) (hm : m < 16 ^ w)
    (h : hexChars n w = hexChars m w) : n = m := by
  have h1 := hexChars_foldl w n 0 hn
  have h2 := hexChars_foldl w m 0 hm
  rw [h] at h1
  rw [h1] at h2
  omega

theorem uuid_segments (h : List Char) :
    h.take 8 ++ ((h.drop 8).take 4 ++ ((h.drop 12).take 4 ++ ((h.drop 16).take 4 ++ h.drop 20))) = h := by
  have e20 : (h.drop 16).drop 4 = h.drop 20 := by simp [List.drop_drop]
  have e16 : (h.drop 12).drop 4 = h.drop 16 := by simp [List.drop_drop]
  have e12 : (h.drop 8).drop 4 = h.drop 12 := by simp [List.drop_drop]
  rw [← e20, List.take_append_drop, ← e16, List.take_append_drop, ← e12,
    List.take_append_drop, List.take_append_drop]

theorem filter_dash_cons (l : List Char) :
    ('-' :: l).filter (fun c => c != '-') = l.filter (fun c => c != '-') := by
  simp [List.filter_cons]

theorem filter_uuidGroups (h : List Char) (hnd : ∀ c ∈ h, c ≠ '-') :
    (uuidGroups h).filter (fun c => c != '-') = h := by
  have hq : ∀ l : List Char, l ⊆ h → l.filter (fun c => c != '-') = l := by
    intro l hl
    apply List.filter_eq_self.mpr
    intro a ha
    simpa using hnd a (hl ha)
  have hsub : ∀ n m : Nat, (h.drop n).take m ⊆ h :=
    fun n m => (List.take_subset _ _).trans (List.drop_subset _ _)
  rw [uuidGroups, List.filter_append, filter_dash_cons, List.filter_append, filter_dash_cons,
    List.filter_append, filter_dash_cons, List.filter_append, filter_dash_cons,
    hq _ (List.take_subset _ _), hq _ (hsub 8 4), hq _ (hsub 12 4), hq _ (hsub 16 4),
    hq _ (List.drop_subset _ _)]
  exact uuid_segments h

theorem uuidStr_data (n : Nat) : (uuidStr n).data = uuidGroups (hexChars (n % 2 ^ 128) 32) := rfl

theorem uuidStr_length (n : Nat) : (uuidStr n).length = 36 := by
  have h0 : (uuidStr n).length = (uuidGroups (hexChars (n % 2 ^ 128) 32)).length := rfl
  rw [h0]
  simp [uuidGroups, List.length_append, List.length_take, List.length_drop, hexChars_length]

theorem uuidStr_ne_empty (n : Nat) : uuidStr n ≠ "" := by
  intro h
  have hl := uuidStr_length n
  rw [h] at hl
  exact absurd hl (by decide)

theorem uuidStr_inj {n m : Nat} (hn : n < 2 ^ 128) (hm : m < 2 ^ 128)
    (h : uuidStr n = uuidStr m) : n = m := by
  have hpow : (16 : Nat) ^ 32 = 2 ^ 128 := by norm_num
  have hdata : uuidGroups (hexChars (n % 2 ^ 128) 32) = uuidGroups (hexChars (m % 2 ^ 128) 32) := by
    rw [← uuidStr_data, ← uuidStr_data, h]
  have hgn := filter_uuidGroups (hexChars (n % 2 ^ 128) 32) (hexChars_no_dash 32 _)
  have hgm := filter_uuidGroups (hexChars (m % 2 ^ 128) 32) (hexChars_no_dash 32 _)
  rw [hdata] at hgn
  rw [hgn] at hgm
  have hbn : n % 2 ^ 128 < 16 ^ 32 := by rw [hpow]; exact Nat.mod_lt _ (by positivity)
  have hbm : m % 2 ^ 128 < 16 ^ 32 := by rw [hpow]; exact Nat.mod_lt _ (by positivity)
  have := hexChars_inj hbn hbm hgm
  rw [Nat.mod_eq_of_lt hn, Nat.mod_eq_of_lt hm] at this
  exact this

/- ### Operation shape lemmas -/

theorem create_car_cases (s : DB) (rnd now : Nat) (d : CarInput) :
    CarService.create_car s rnd now d = (none, s) ∨
      ∃ c, CarService.create_car s rnd now d = (some c, dbSet s (uuidStr rnd) c) := by
  rcases hmk : mkCar (uuidStr rnd) (some d.make) (some d.model) (some d.year) (some d.color)
      (some d.price) now now with _ | c
  · left
    simp [CarService.create_car, hmk]
  · right
    exact ⟨c, by simp [CarService.create_car, hmk]⟩

theorem update_car_cases (s : DB) (id0 : String) (now : Nat) (d : CarInput) :
    CarService.update_car s id0 now d = (.notFound, s) ∨
      CarService.update_car s id0 now d = (.validationError, s) ∨
      ∃ c, CarService.update_car s id0 now d = (.ok c, dbSet s id0 c) := by
  rcases hdb : dbGet s id0 with _ | old
  · left
    simp [CarService.update_car, hdb]
  · rcases hmk : mkCar id0 (some d.make) (some d.model) (some d.year) (some d.color)
        (some d.price) old.created_at now with _ | c
    · right; left
      simp [CarService.update_car, hdb, hmk]
    · right; right
      exact ⟨c, by simp [CarService.update_car, hdb, hmk]⟩

theorem partial_update_car_cases (s : DB) (id0 : String) (now : Nat) (p : CarPartialUpdate) :
    CarService.partial_update_car s id0 now p = (.notFound, s) ∨
      CarService.partial_update_car s id0 now p = (.emptyUpdate, s) ∨
      CarService.partial_update_car s id0 now p = (.validationError, s) ∨
      ∃ c, CarService.partial_update_car s id0 now p = (.ok c, dbSet s id0 c) := by
  rcases hdb : dbGet s id0 with _ | old
  · left
    simp [CarService.partial_update_car, hdb]
  · by_cases he : p.isEmpty
    · right; left
      simp [CarService.partial_update_car, hdb, he]
    · rcases hmk : mkCar id0 (providedOr p.make old.make) (providedOr p.model old.model)
          (providedOr p.year old.year) (providedOr p.color old.color)
          (providedOr p.price old.price) old.created_at now with _ | c
      · right; right; left
        simp [CarService.partial_update_car, hdb, he, hmk]
      · right; right; right
        exact ⟨c, by simp [CarService.partial_update_car, hdb, he, hmk]⟩

theorem delete_car_cases (s : DB) (id0 : String) :
    CarService.delete_car s id0 = (false, s) ∨
      CarService.delete_car s id0 = (true, dbDel s id0) := by
  rcases hdb : dbGet s id0 with _ | c
  · left
    simp [CarService.delete_car, hdb]
  · right
    simp [CarService.delete_car, hdb]

/- ### Explicit-null helper lemmas -/

theorem isExplicitNull_eq {α : Type} {f : Option (Option α)}
    (h : isExplicitNull f = true) : f = some none := by
  rcases f with _ | vo
  · simp [isExplicitNull] at h
  · rcases vo with _ | v
    · rfl
    · simp [isExplicitNull] at h

theorem hasNull_cases {p : CarPartialUpdate} (h : p.hasNull = true) :
    p.make = some none ∨ p.model = some none ∨ p.year = some none ∨
      p.color = some none ∨ p.price = some none := by
  simp only [CarPartialUpdate.hasNull, Bool.or_eq_true] at h
  rcases h with (((h | h) | h) | h) | h
  · exact Or.inl (isExplicitNull_eq h)
  · exact Or.inr (Or.inl (isExplicitNull_eq h))
  · exact Or.inr (Or.inr (Or.inl (isExplicitNull_eq h)))
  · exact Or.inr (Or.inr (Or.inr (Or.inl (isExplicitNull_eq h))))
  · exact Or.inr (Or.inr (Or.inr (Or.inr (isExplicitNull_eq h))))

theorem isEmpty_false_of_hasNull {p : CarPartialUpdate} (h : p.hasNull = true) :
    p.isEmpty = false := by
  rcases hasNull_cases h with h1 | h1 | h1 | h1 | h1 <;>
    simp [CarPartialUpdate.isEmpty, h1]

theorem merge_mkCar_none_of_hasNull (p : CarPartialUpdate) (old : Car) (id0 : String)
    (ca ua : Nat) (h : p.hasNull = true) :
    mkCar id0 (providedOr p.make old.make) (providedOr p.model old.model)
      (providedOr p.year old.year) (providedOr p.color old.color)
      (providedOr p.price old.price) ca ua = none := by
  rcases hasNull_cases h with h1 | h1 | h1 | h1 | h1
  · rw [h1]
    exact mkCar_none_make _ _ _ _ _ _ _
  · rw [h1]
    exact mkCar_none_model _ _ _ _ _ _ _
  · rw [h1]
    exact mkCar_none_year _ _ _ _ _ _ _
  · rw [h1]
    exact mkCar_none_color _ _ _ _ _ _ _
  · rw [h1]
    exact mkCar_none_price _ _ _ _ _ _ _

/- ### Claim theorems -/

/-- C1 (counterexample): with zero fields set and an id absent from the
store, `partial_update_car` returns the not-found signal, not the
EmptyUpdate error; so the claim "fails with EmptyUpdate regardless of
whether the id exists" is false on the code. -/
theorem C1_counterexample :
    (CarPartialUpdate.mk none none none none none).isEmpty = true ∧
    dbGet [] "x" = none ∧
    (CarService.partial_update_car [] "x" 0 (CarPartialUpdate.mk none none none none none)).1 =
      CarService.MergeResult.notFound ∧
    CarService.MergeResult.notFound ≠ CarService.MergeResult.emptyUpdate :=
  ⟨rfl, rfl, rfl, by decide⟩

/-- C1 (amended): a merge with zero explicitly-set fields fails with the
EmptyUpdate error whenever the id exists in the store; when the id is
absent it returns the not-found signal instead, because the absence check
precedes the empty-body check. -/
theorem C1_empty_merge (s : DB) (id0 : String) (now : Nat) (p : CarPartialUpdate)
    (he : p.isEmpty = true) :
    (∀ old, dbGet s id0 = some old →
      CarService.partial_update_car s id0 now p = (.emptyUpdate, s)) ∧
    (dbGet s id0 = none →
      CarService.partial_update_car s id0 now p = (.notFound, s)) := by
  constructor
  · intro old hget
    simp [CarService.partial_update_car, hget, he]
  · intro hget
    simp [CarService.partial_update_car, hget]

/-- Witness for C1: the amended statement evaluated on a one-car store. -/
theorem C1_empty_merge_witness :
    CarService.partial_update_car
        [("k", Car.mk "k" "Toyota" "Corolla" 2022 "blue" 20000 1 1)] "k" 5
        (CarPartialUpdate.mk none none none none none) =
      (CarService.MergeResult.emptyUpdate,
        [("k", Car.mk "k" "Toyota" "Corolla" 2022 "blue" 20000 1 1)]) :=
  (C1_empty_merge [("k", Car.mk "k" "Toyota" "Corolla" 2022 "blue" 20000 1 1)] "k" 5
    (CarPartialUpdate.mk none none none none none) rfl).1
    (Car.mk "k" "Toyota" "Corolla" 2022 "blue" 20000 1 1) (by decide)

/-- C3: a merge body carrying an explicit null for some field is never
treated as an omission: the store is left unchanged, the merge never
succeeds, and whenever the target record exists the call is rejected with
a field-validation error (the null flows into the `Car(...)` constructor,
whose field validation raises). -/
theorem C3_explicit_null (s : DB) (id0 : String) (now : Nat) (p : CarPartialUpdate)
    (hnull : p.hasNull = true) :
    (CarService.partial_update_car s id0 now p).2 = s ∧
    (∀ c, (CarService.partial_update_car s id0 now p).1 ≠ CarService.MergeResult.ok c) ∧
    (∀ old, dbGet s id0 = some old →
      (CarService.partial_update_car s id0 now p).1 = CarService.MergeResult.validationError) := by
  rcases hdb : dbGet s id0 with _ | old
  · refine ⟨?_, ?_, ?_⟩
    · simp [CarService.partial_update_car, hdb]
    · intro c
      simp [CarService.partial_update_car, hdb]
    · intro old h0
      cases h0
  · have he := isEmpty_false_of_hasNull hnull
    have hmk := merge_mkCar_none_of_hasNull p old id0 old.created_at now hnull
    refine ⟨?_, ?_, ?_⟩
    · simp [CarService.partial_update_car, hdb, he, hmk]
    · intro c
      simp [CarService.partial_update_car, hdb, he, hmk]
    · intro old2 h0
      injection h0 with h1
      subst h1
      simp [CarService.partial_update_car, hdb, he, hmk]

/-- Witness for C3: an explicit null for `make` on an existing record is
rejected as a validation error and the store is untouched. -/
theorem C3_explicit_null_witness :
    (CarService.partial_update_car [("k", Car.mk "k" "Toyota" "Corolla" 2022 "blue" 20000 1 1)]
        "k" 5 (CarPartialUpdate.mk (some none) none none none none)).1 =
      CarService.MergeResult.validationError ∧
    (CarService.partial_update_car [("k", Car.mk "k" "Toyota" "Corolla" 2022 "blue" 20000 1 1)]
        "k" 5 (CarPartialUpdate.mk (some none) none none none none)).2 =
      [("k", Car.mk "k" "Toyota" "Corolla" 2022 "blue" 20000 1 1)] :=
  ⟨(C3_explicit_null [("k", Car.mk "k" "Toyota" "Corolla" 2022 "blue" 20000 1 1)] "k" 5
      (CarPartialUpdate.mk (some none) none none none none) rfl).2.2
      (Car.mk "k" "Toyota" "Corolla" 2022 "blue" 20000 1 1) (by decide),
    (C3_explicit_null [("k", Car.mk "k" "Toyota" "Corolla" 2022 "blue" 20000 1 1)] "k" 5
      (CarPartialUpdate.mk (some none) none none none none) rfl).1⟩

/-- C10: a merge that explicitly sets all five fields returns and stores
exactly the same record as a full replace with the same five values, the
same id and the same timestamp. -/
theorem C10_merge_all_set_eq_replace (s : DB) (id0 : String) (now : Nat)
    (mk md : String) (yr : Int) (cl : String) (pr : ℚ) :
    (CarService.partial_update_car s id0 now
        (CarPartialUpdate.mk (some (some mk)) (some (some md)) (some (some yr))
          (some (some cl)) (some (some pr)))).1.car =
      (CarService.update_car s id0 now (CarInput.mk mk md yr cl pr)).1.car ∧
    (CarService.partial_update_car s id0 now
        (CarPartialUpdate.mk (some (some mk)) (some (some md)) (some (some yr))
          (some (some cl)) (some (some pr)))).2 =
      (CarService.update_car s id0 now (CarInput.mk mk md yr cl pr)).2 := by
  rcases hdb : dbGet s id0 with _ | old
  · constructor <;>
      simp [CarService.partial_update_car, CarService.update_car, hdb,
        CarService.MergeResult.car, CarService.ReplaceResult.car]
  · have he : (CarPartialUpdate.mk (some (some mk)) (some (some md)) (some (some yr))
        (some (some cl)) (some (some pr))).isEmpty = false := rfl
    rcases hmk : mkCar id0 (some mk) (some md) (some yr) (some cl) (some pr) old.created_at now
        with _ | c <;>
      constructor <;>
        simp [CarService.partial_update_car, CarService.update_car, hdb, he, hmk, providedOr,
          CarService.MergeResult.car, CarService.ReplaceResult.car]


/-- C2: merging a partial body that explicitly sets exactly one of the five
mutable fields returns and stores a record in which that field takes the
provided value and `updated_at` takes the current clock reading, while the
id, `created_at` and all other mutable fields equal the pre-merge values.
The set value is assumed valid (pydantic rejects the request body
otherwise) and the stored record valid (the store invariant). -/
theorem C2_single_field_merge (s : DB) (id0 : String) (now : Nat) (old : Car)
    (hget : dbGet s id0 = some old) (hid : old.id = id0)
    (hok : carFieldsValidB old.make old.model old.year old.color old.price = true) :
    (∀ v, validStrB 50 v = true →
      CarService.partial_update_car s id0 now
          (CarPartialUpdate.mk (some (some v)) none none none none) =
        (.ok { old with make := v, updated_at := now },
          dbSet s id0 { old with make := v, updated_at := now })) ∧
    (∀ v, validStrB 50 v = true →
      CarService.partial_update_car s id0 now
          (CarPartialUpdate.mk none (some (some v)) none none none) =
        (.ok { old with model := v, updated_at := now },
          dbSet s id0 { old with model := v, updated_at := now })) ∧
    (∀ v, validYearB v = true →
      CarService.partial_update_car s id0 now
          (CarPartialUpdate.mk none none (some (some v)) none none) =
        (.ok { old with year := v, updated_at := now },
          dbSet s id0 { old with year := v, updated_at := now })) ∧
    (∀ v, validStrB 30 v = true →
      CarService.partial_update_car s id0 now
          (CarPartialUpdate.mk none none none (some (some v)) none) =
        (.ok { old with color := v, updated_at := now },
          dbSet s id0 { old with color := v, updated_at := now })) ∧
    (∀ v, validPriceB v = true →
      CarService.partial_update_car s id0 now
          (CarPartialUpdate.mk none none none none (some (some v))) =
        (.ok { old with price := v, updated_at := now },
          dbSet s id0 { old with price := v, updated_at := now })) := by
  subst hid
  have h0 := hok
  simp only [carFieldsValidB, Bool.and_eq_true] at h0
  obtain ⟨⟨⟨⟨h1, h2⟩, h3⟩, h4⟩, h5⟩ := h0
  refine ⟨?_, ?_, ?_, ?_, ?_⟩ <;> intro v hv <;>
    simp only [CarService.partial_update_car, hget] <;>
    rw [show (mkCar old.id) = mkCar old.id from rfl] <;>
    simp [providedOr, CarPartialUpdate.isEmpty, mkCar, carFieldsValidB, h1, h2, h3, h4, h5, hv]

/-- Witness for C2: a single-field color merge on a one-car store. -/
theorem C2_single_field_merge_witness :
    CarService.partial_update_car
        [("k", Car.mk "k" "Toyota" "Corolla" 2022 "blue" 20000 1 1)] "k" 5
        (CarPartialUpdate.mk none none none (some (some "red")) none) =
      (CarService.MergeResult.ok (Car.mk "k" "Toyota" "Corolla" 2022 "red" 20000 1 5),
        dbSet [("k", Car.mk "k" "Toyota" "Corolla" 2022 "blue" 20000 1 1)] "k"
          (Car.mk "k" "Toyota" "Corolla" 2022 "red" 20000 1 5)) :=
  (C2_single_field_merge [("k", Car.mk "k" "Toyota" "Corolla" 2022 "blue" 20000 1 1)] "k" 5
    (Car.mk "k" "Toyota" "Corolla" 2022 "blue" 20000 1 1) (by decide) rfl (by decide)).2.2.2.1
    "red" (by decide)

/-- C4: a full replace on an existing record preserves the record's id and
`created_at`, sets `updated_at` to the current clock reading (which is at
least the previous `updated_at` when successive clock readings are
non-decreasing), and overwrites every mutable field with the supplied
input; on an absent id it returns the not-found signal and leaves the
store unchanged. -/
theorem C4_replace (s : DB) (id0 : String) (now : Nat) (d : CarInput)
    (hd : d.validB = true) :
    (∀ old, dbGet s id0 = some old → old.id = id0 → old.updated_at ≤ now →
      CarService.update_car s id0 now d =
        (.ok (Car.mk old.id d.make d.model d.year d.color d.price old.created_at now),
          dbSet s id0 (Car.mk old.id d.make d.model d.year d.color d.price old.created_at now)) ∧
      old.updated_at ≤ (Car.mk old.id d.make d.model d.year d.color d.price old.created_at now).updated_at) ∧
    (dbGet s id0 = none → CarService.update_car s id0 now d = (.notFound, s)) := by
  constructor
  · intro old hget hid hle
    subst hid
    refine ⟨?_, hle⟩
    simp only [CarService.update_car, hget]
    rw [mkCar_all_some _ _ _ _ _ _ _ _ (by simpa [CarInput.validB] using hd)]
  · intro hget
    simp [CarService.update_car, hget]

/-- Witness for C4: replacing the only record of a one-car store. -/
theorem C4_replace_witness :
    CarService.update_car [("k", Car.mk "k" "Toyota" "Corolla" 2022 "blue" 20000 1 1)] "k" 5
        (CarInput.mk "Honda" "Civic" 2024 "red" 30000) =
      (CarService.ReplaceResult.ok (Car.mk "k" "Honda" "Civic" 2024 "red" 30000 1 5),
        dbSet [("k", Car.mk "k" "Toyota" "Corolla" 2022 "blue" 20000 1 1)] "k"
          (Car.mk "k" "Honda" "Civic" 2024 "red" 30000 1 5)) ∧
    (1 : Nat) ≤ (Car.mk "k" "Honda" "Civic" 2024 "red" 30000 1 5).updated_at :=
  (C4_replace [("k", Car.mk "k" "Toyota" "Corolla" 2022 "blue" 20000 1 1)] "k" 5
    (CarInput.mk "Honda" "Civic" 2024 "red" 30000) (by decide)).1
    (Car.mk "k" "Toyota" "Corolla" 2022 "blue" 20000 1 1) (by decide) rfl (by decide)

/-- C5: creating a car from a valid input always succeeds: the returned
record carries the freshly generated id (the canonical 36-character
rendering of the supplied 128-bit random value, hence non-empty), its
mutable fields equal the input, `created_at = updated_at = now`, the
record is stored under its id, and ids rendered from distinct 128-bit
values are distinct (so the id differs from every previously issued id as
long as the underlying random values never repeat). -/
theorem C5_create (s : DB) (rnd now : Nat) (d : CarInput) (hd : d.validB = true) :
    ∃ c, CarService.create_car s rnd now d = (some c, dbSet s (uuidStr rnd) c) ∧
      c.id = uuidStr rnd ∧ c.id.length = 36 ∧ c.id ≠ "" ∧
      c.make = d.make ∧ c.model = d.model ∧ c.year = d.year ∧ c.color = d.color ∧
      c.price = d.price ∧ c.created_at = now ∧ c.updated_at = now ∧
      c.created_at = c.updated_at ∧
      dbGet (dbSet s (uuidStr rnd) c) (uuidStr rnd) = some c ∧
      (∀ m, m < 2 ^ 128 → rnd < 2 ^ 128 → m ≠ rnd → uuidStr m ≠ c.id) := by
  refine ⟨Car.mk (uuidStr rnd) d.make d.model d.year d.color d.price now now, ?_, rfl,
    uuidStr_length rnd, uuidStr_ne_empty rnd, rfl, rfl, rfl, rfl, rfl, rfl, rfl, rfl,
    dbGet_dbSet_self _ _ _, ?_⟩
  · simp only [CarService.create_car]
    rw [mkCar_all_some _ _ _ _ _ _ _ _ (by simpa [CarInput.validB] using hd)]
  · intro m hm hrnd hne heq
    exact hne (uuidStr_inj hm hrnd heq)

/-- Witness for C5: creating a car in the empty store. -/
theorem C5_create_witness :
    ∃ c, CarService.create_car [] 0 5 (CarInput.mk "Toyota" "Corolla" 2022 "blue" 20000) =
        (some c, dbSet [] (uuidStr 0) c) ∧
      c.id = uuidStr 0 ∧ c.id.length = 36 ∧ c.id ≠ "" ∧
      c.make = "Toyota" ∧ c.model = "Corolla" ∧ c.year = 2022 ∧ c.color = "blue" ∧
      c.price = 20000 ∧ c.created_at = 5 ∧ c.updated_at = 5 ∧
      c.created_at = c.updated_at ∧
      dbGet (dbSet [] (uuidStr 0) c) (uuidStr 0) = some c ∧
      (∀ m, m < 2 ^ 128 → 0 < 2 ^ 128 → m ≠ 0 → uuidStr m ≠ c.id) :=
  C5_create [] 0 5 (CarInput.mk "Toyota" "Corolla" 2022 "blue" 20000) (by decide)

/-- Store states reachable from the empty store through the four mutating
service operations, paired with the latest clock reading; each mutation
reads a clock value at least as large as the previous one (the
non-decreasing-clock assumption), and bodies arriving through the routes
have passed pydantic parse validation. -/
inductive Reach : DB → Nat → Prop where
  | init : Reach [] 0
  | step_create (s : DB) (t rnd now : Nat) (d : CarInput) :
      Reach s t → t ≤ now → d.validB = true →
      Reach (CarService.create_car s rnd now d).2 now
  | step_replace (s : DB) (t : Nat) (id0 : String) (now : Nat) (d : CarInput) :
      Reach s t → t ≤ now → d.validB = true →
      Reach (CarService.update_car s id0 now d).2 now
  | step_merge (s : DB) (t : Nat) (id0 : String) (now : Nat) (p : CarPartialUpdate) :
      Reach s t → t ≤ now → p.validB = true →
      Reach (CarService.partial_update_car s id0 now p).2 now
  | step_delete (s : DB) (t : Nat) (id0 : String) :
      Reach s t → Reach (CarService.delete_car s id0).2 t

theorem reach_inv {s : DB} {t : Nat} (h : Reach s t) :
    ∀ k c, (k, c) ∈ s →
      carFieldsValidB c.make c.model c.year c.color c.price = true ∧
      c.created_at ≤ c.updated_at ∧ c.updated_at ≤ t := by
  induction h with
  | init =>
    intro k c hm
    simp at hm
  | step_create s t rnd now d hr hle hd ih =>
    intro k c hm
    rcases hmk : mkCar (uuidStr rnd) (some d.make) (some d.model) (some d.year) (some d.color)
        (some d.price) now now with _ | c0
    · have hs : (CarService.create_car s rnd now d).2 = s := by
        simp [CarService.create_car, hmk]
      rw [hs] at hm
      obtain ⟨h1, h2, h3⟩ := ih k c hm
      exact ⟨h1, h2, h3.trans hle⟩
    · have hs : (CarService.create_car s rnd now d).2 = dbSet s (uuidStr rnd) c0 := by
        simp [CarService.create_car, hmk]
      rw [hs] at hm
      rcases mem_dbSet hm with ⟨hk, rfl⟩ | hmem
      · obtain ⟨_, _, _, _, _, _, hca, hua, hvalid⟩ := mkCar_some hmk
        exact ⟨hvalid, by rw [hca, hua], by rw [hua]⟩
      · obtain ⟨h1, h2, h3⟩ := ih k c hmem
        exact ⟨h1, h2, h3.trans hle⟩
  | step_replace s t id0 now d hr hle hd ih =>
    intro k c hm
    rcases hdb : dbGet s id0 with _ | old
    · have hs : (CarService.update_car s id0 now d).2 = s := by
        simp [CarService.update_car, hdb]
      rw [hs] at hm
      obtain ⟨h1, h2, h3⟩ := ih k c hm
      exact ⟨h1, h2, h3.trans hle⟩
    · rcases hmk : mkCar id0 (some d.make) (some d.model) (some d.year) (some d.color)
          (some d.price) old.created_at now with _ | c0
      · have hs : (CarService.update_car s id0 now d).2 = s := by
          simp [CarService.update_car, hdb, hmk]
        rw [hs] at hm
        obtain ⟨h1, h2, h3⟩ := ih k c hm
        exact ⟨h1, h2, h3.trans hle⟩
      · have hs : (CarService.update_car s id0 now d).2 = dbSet s id0 c0 := by
          simp [CarService.update_car, hdb, hmk]
        rw [hs] at hm
        rcases mem_dbSet hm with ⟨hk, rfl⟩ | hmem
        · obtain ⟨_, _, _, _, _, _, hca, hua, hvalid⟩ := mkCar_some hmk
          obtain ⟨_, hco, hcu⟩ := ih id0 old (dbGet_mem hdb)
          refine ⟨hvalid, ?_, by rw [hua]⟩
          rw [hca, hua]
          exact hco.trans (hcu.trans hle)
        · obtain ⟨h1, h2, h3⟩ := ih k c hmem
          exact ⟨h1, h2, h3.trans hle⟩
  | step_merge s t id0 now p hr hle hp ih =>
    intro k c hm
    rcases hdb : dbGet s id0 with _ | old
    · have hs : (CarService.partial_update_car s id0 now p).2 = s := by
        simp [CarService.partial_update_car, hdb]
      rw [hs] at hm
      obtain ⟨h1, h2, h3⟩ := ih k c hm
      exact ⟨h1, h2, h3.trans hle⟩
    · by_cases he : p.isEmpty
      · have hs : (CarService.partial_update_car s id0 now p).2 = s := by
          simp [CarService.partial_update_car, hdb, he]
        rw [hs] at hm
        obtain ⟨h1, h2, h3⟩ := ih k c hm
        exact ⟨h1, h2, h3.trans hle⟩
      · rcases hmk : mkCar id0 (providedOr p.make old.make) (providedOr p.model old.model)
            (providedOr p.year old.year) (providedOr p.color old.color)
            (providedOr p.price old.price) old.created_at now with _ | c0
        · have hs : (CarService.partial_update_car s id0 now p).2 = s := by
            simp [CarService.partial_update_car, hdb, he, hmk]
          rw [hs] at hm
          obtain ⟨h1, h2, h3⟩ := ih k c hm
          exact ⟨h1, h2, h3.trans hle⟩
        · have hs : (CarService.partial_update_car s id0 now p).2 = dbSet s id0 c0 := by
            simp [CarService.partial_update_car, hdb, he, hmk]
          rw [hs] at hm
          rcases mem_dbSet hm with ⟨hk, rfl⟩ | hmem
          · obtain ⟨_, _, _, _, _, _, hca, hua, hvalid⟩ := mkCar_some hmk
            obtain ⟨_, hco, hcu⟩ := ih id0 old (dbGet_mem hdb)
            refine ⟨hvalid, ?_, by rw [hua]⟩
            rw [hca, hua]
            exact hco.trans (hcu.trans hle)
          · obtain ⟨h1, h2, h3⟩ := ih k c hmem
            exact ⟨h1, h2, h3.trans hle⟩
  | step_delete s t id0 hr ih =>
    intro k c hm
    rcases delete_car_cases s id0 with hdl | hdl
    · rw [hdl] at hm
      exact ih k c hm
    · rw [hdl] at hm
      exact ih k c (mem_dbDel hm)

/-- C6: in every store state reachable from the empty store by create,
replace, merge and delete (with non-decreasing clock readings), every
stored record satisfies the field constraints — make and model non-empty
and at most 50 characters, color non-empty and at most 30 characters,
year in [1900, 2030], price positive — and `created_at` is at most
`updated_at`. -/
theorem C6_invariant (s : DB) (t : Nat) (h : Reach s t) (k : String) (c : Car)
    (hm : (k, c) ∈ s) :
    (0 < c.make.length ∧ c.make.length ≤ 50) ∧
    (0 < c.model.length ∧ c.model.length ≤ 50) ∧
    (1900 ≤ c.year ∧ c.year ≤ 2030) ∧
    (0 < c.color.length ∧ c.color.length ≤ 30) ∧
    0 < c.price ∧
    c.created_at ≤ c.updated_at := by
  obtain ⟨hv, hts, _⟩ := reach_inv h k c hm
  simp only [carFieldsValidB, validStrB, validYearB, validPriceB, Bool.and_eq_true,
    decide_eq_true_eq] at hv
  obtain ⟨⟨⟨⟨⟨h1a, h1b⟩, h2a, h2b⟩, h3a, h3b⟩, h4a, h4b⟩, h5⟩ := hv
  exact ⟨⟨h1a, h1b⟩, ⟨h2a, h2b⟩, ⟨h3a, h3b⟩, ⟨h4a, h4b⟩, h5, hts⟩

/-- Witness for C6: the invariant evaluated on the store reached by one
create from the empty store. -/
theorem C6_invariant_witness :
    (0 < (Car.mk (uuidStr 0) "Toyota" "Corolla" 2022 "blue" 20000 5 5).make.length ∧
      (Car.mk (uuidStr 0) "Toyota" "Corolla" 2022 "blue" 20000 5 5).make.length ≤ 50) ∧
    (0 < (Car.mk (uuidStr 0) "Toyota" "Corolla" 2022 "blue" 20000 5 5).model.length ∧
      (Car.mk (uuidStr 0) "Toyota" "Corolla" 2022 "blue" 20000 5 5).model.length ≤ 50) ∧
    (1900 ≤ (Car.mk (uuidStr 0) "Toyota" "Corolla" 2022 "blue" 20000 5 5).year ∧
      (Car.mk (uuidStr 0) "Toyota" "Corolla" 2022 "blue" 20000 5 5).year ≤ 2030) ∧
    (0 < (Car.mk (uuidStr 0) "Toyota" "Corolla" 2022 "blue" 20000 5 5).color.length ∧
      (Car.mk (uuidStr 0) "Toyota" "Corolla" 2022 "blue" 20000 5 5).color.length ≤ 30) ∧
    0 < (Car.mk (uuidStr 0) "Toyota" "Corolla" 2022 "blue" 20000 5 5).price ∧
    (Car.mk (uuidStr 0) "Toyota" "Corolla" 2022 "blue" 20000 5 5).created_at ≤
      (Car.mk (uuidStr 0) "Toyota" "Corolla" 2022 "blue" 20000 5 5).updated_at :=
  C6_invariant _ 5
    (Reach.step_create [] 0 0 5 (CarInput.mk "Toyota" "Corolla" 2022 "blue" 20000)
      Reach.init (by decide) (by decide))
    (uuidStr 0) (Car.mk (uuidStr 0) "Toyota" "Corolla" 2022 "blue" 20000 5 5) (by decide)

/-- C7: every mutation is atomic.  On each failure path (id absent, empty
merge body, or a field-validation failure while building the new record)
the store is exactly what it was before the call; on success the new
record wholesale replaces the old entry under the same key (or, for
create, is inserted under the generated id; for delete, the entry is
removed). -/
theorem C7_atomicity (s : DB) (id0 : String) (rnd now : Nat) (d : CarInput)
    (p : CarPartialUpdate) :
    ((CarService.create_car s rnd now d).1 = none →
      (CarService.create_car s rnd now d).2 = s) ∧
    (∀ c, (CarService.create_car s rnd now d).1 = some c →
      (CarService.create_car s rnd now d).2 = dbSet s (uuidStr rnd) c) ∧
    ((CarService.update_car s id0 now d).1 = .notFound →
      (CarService.update_car s id0 now d).2 = s) ∧
    ((CarService.update_car s id0 now d).1 = .validationError →
      (CarService.update_car s id0 now d).2 = s) ∧
    (∀ c, (CarService.update_car s id0 now d).1 = .ok c →
      (CarService.update_car s id0 now d).2 = dbSet s id0 c) ∧
    ((CarService.partial_update_car s id0 now p).1 = .notFound →
      (CarService.partial_update_car s id0 now p).2 = s) ∧
    ((CarService.partial_update_car s id0 now p).1 = .emptyUpdate →
      (CarService.partial_update_car s id0 now p).2 = s) ∧
    ((CarService.partial_update_car s id0 now p).1 = .validationError →
      (CarService.partial_update_car s id0 now p).2 = s) ∧
    (∀ c, (CarService.partial_update_car s id0 now p).1 = .ok c →
      (CarService.partial_update_car s id0 now p).2 = dbSet s id0 c) ∧
    ((CarService.delete_car s id0).1 = false → (CarService.delete_car s id0).2 = s) ∧
    ((CarService.delete_car s id0).1 = true → (CarService.delete_car s id0).2 = dbDel s id0) := by
  rcases create_car_cases s rnd now d with hc | ⟨c1, hc⟩ <;>
    rcases update_car_cases s id0 now d with hu | hu | ⟨c2, hu⟩ <;>
      rcases partial_update_car_cases s id0 now p with hp2 | hp2 | hp2 | ⟨c3, hp2⟩ <;>
        rcases delete_car_cases s id0 with hdl | hdl <;>
          refine ⟨?_, ?_, ?_, ?_, ?_, ?_, ?_, ?_, ?_, ?_, ?_⟩ <;>
            simp only [hc, hu, hp2, hdl] <;> simp

/-- Witness for C7: the success branch of a replace on a one-car store. -/
theorem C7_atomicity_witness :
    (CarService.update_car [("k", Car.mk "k" "Toyota" "Corolla" 2022 "blue" 20000 1 1)] "k" 5
        (CarInput.mk "Honda" "Civic" 2024 "red" 30000)).2 =
      dbSet [("k", Car.mk "k" "Toyota" "Corolla" 2022 "blue" 20000 1 1)] "k"
        (Car.mk "k" "Honda" "Civic" 2024 "red" 30000 1 5) :=
  (C7_atomicity [("k", Car.mk "k" "Toyota" "Corolla" 2022 "blue" 20000 1 1)] "k" 0 5
    (CarInput.mk "Honda" "Civic" 2024 "red" 30000)
    (CarPartialUpdate.mk none none none none none)).2.2.2.2.1
    (Car.mk "k" "Honda" "Civic" 2024 "red" 30000 1 5) (by decide)

/-- C8: delete removes the record and reports `true` when the id is
present (after which the id no longer resolves, so a second delete of the
same id reports `false` and changes nothing), and reports `false` leaving
the store untouched when the id is absent. -/
theorem C8_delete (s : DB) (id0 : String) (hnd : (s.map Prod.fst).Nodup) :
    (∀ c, dbGet s id0 = some c →
      CarService.delete_car s id0 = (true, dbDel s id0) ∧
      dbGet (dbDel s id0) id0 = none ∧
      CarService.delete_car (dbDel s id0) id0 = (false, dbDel s id0)) ∧
    (dbGet s id0 = none → CarService.delete_car s id0 = (false, s)) := by
  constructor
  · intro c hget
    have hdel : dbGet (dbDel s id0) id0 = none := dbGet_dbDel_self hnd
    exact ⟨by simp [CarService.delete_car, hget], hdel,
      by simp [CarService.delete_car, hdel]⟩
  · intro hget
    simp [CarService.delete_car, hget]

/-- Witness for C8: delete twice on a one-car store. -/
theorem C8_delete_witness :
    CarService.delete_car [("k", Car.mk "k" "Toyota" "Corolla" 2022 "blue" 20000 1 1)] "k" =
      (true, dbDel [("k", Car.mk "k" "Toyota" "Corolla" 2022 "blue" 20000 1 1)] "k") ∧
    dbGet (dbDel [("k", Car.mk "k" "Toyota" "Corolla" 2022 "blue" 20000 1 1)] "k") "k" = none ∧
    CarService.delete_car (dbDel [("k", Car.mk "k" "Toyota" "Corolla" 2022 "blue" 20000 1 1)] "k")
        "k" =
      (false, dbDel [("k", Car.mk "k" "Toyota" "Corolla" 2022 "blue" 20000 1 1)] "k") :=
  (C8_delete [("k", Car.mk "k" "Toyota" "Corolla" 2022 "blue" 20000 1 1)] "k" (by decide)).1
    (Car.mk "k" "Toyota" "Corolla" 2022 "blue" 20000 1 1) (by decide)

/- ### The two implementations compared by C9

`src/main.py` is a standalone FastAPI app whose handlers manipulate the
dictionary directly; `src/app` routes delegate to `CarService`.  Both are
embedded at the HTTP level: a handler turns a store and an operation into
a response and a new store.  pydantic body validation happens in the
framework before either implementation's handler runs, identically for
both.  A pydantic `ValidationError` is a subclass of `ValueError`; the
layered PATCH route catches `ValueError` and maps it to a 400, while the
standalone PATCH handler has no handler for it, so the framework surfaces
an internal server error. -/

/-- Error detail of an HTTP error response: a fixed text set by the code,
or the opaque rendered message of a pydantic `ValidationError`. -/
inductive Detail where
  | text (s : String)
  | pydanticMsg
deriving DecidableEq

/-- An HTTP-level outcome: success with a record or a list, 204
no-content, an `HTTPException` with status and detail, or an unhandled
exception that the framework answers with an internal server error. -/
inductive HResp where
  | ok (code : Nat) (c : Car)
  | okList (cs : List Car)
  | noContent
  | err (code : Nat) (d : Detail)
  | serverError
deriving DecidableEq

/-- The 404 detail string used by every handler. -/
def notFoundMsg (car_id : String) : String :=
  "Car with id " ++ car_id ++ " not found"

/-- One inbound car operation, carrying the clock reading and (for create)
the 128-bit random value its handler would observe. -/
inductive Op where
  | list
  | get (car_id : String)
  | create (rnd now : Nat) (d : CarInput)
  | replace (car_id : String) (now : Nat) (d : CarInput)
  | merge (car_id : String) (now : Nat) (p : CarPartialUpdate)
  | delete (car_id : String)
deriving DecidableEq

/-- Operations on which the two implementations are expected to agree: all
but a merge whose body carries an explicit null. -/
def Op.benign : Op → Bool
  | .merge _ _ p => !p.hasNull
  | _ => true

namespace Standalone

/-- `GET /cars` in `src/main.py`. -/
def get_cars (s : DB) : HResp × DB :=
  (.okList (s.map Prod.snd), s)

/-- `GET /cars/{car_id}` in `src/main.py`. -/
def get_car (s : DB) (car_id : String) : HResp × DB :=
  match dbGet s car_id with
  | none => (.err 404 (.text (notFoundMsg car_id)), s)
  | some c => (.ok 200 c, s)

/-- `POST /cars` in `src/main.py`. -/
def create_car (s : DB) (rnd now : Nat) (d : CarInput) : HResp × DB :=
  let car_id := uuidStr rnd
  match mkCar car_id (some d.make) (some d.model) (some d.year) (some d.color) (some d.price)
      now now with
  | some c => (.ok 201 c, dbSet s car_id c)
  | none => (.serverError, s)

/-- `PUT /cars/{car_id}` in `src/main.py`. -/
def update_car (s : DB) (car_id : String) (now : Nat) (d : CarInput) : HResp × DB :=
  match dbGet s car_id with
  | none => (.err 404 (.text (notFoundMsg car_id)), s)
  | some existing =>
    match mkCar car_id (some d.make) (some d.model) (some d.year) (some d.color) (some d.price)
        existing.created_at now with
    | some c => (.ok 200 c, dbSet s car_id c)
    | none => (.serverError, s)

/-- `PATCH /cars/{car_id}` in `src/main.py`: a `ValidationError` raised by
`Car(...)` is not caught, so it surfaces as an internal server error. -/
def partial_update_car (s : DB) (car_id : String) (now : Nat) (p : CarPartialUpdate) :
    HResp × DB :=
  match dbGet s car_id with
  | none => (.err 404 (.text (notFoundMsg car_id)), s)
  | some existing =>
    if p.isEmpty then (.err 400 (.text "No fields provided for update"), s)
    else
      match mkCar car_id (providedOr p.make existing.make) (providedOr p.model existing.model)
          (providedOr p.year existing.year) (providedOr p.color existing.color)
          (providedOr p.price existing.price) existing.created_at now with
      | some c => (.ok 200 c, dbSet s car_id c)
      | none => (.serverError, s)

/-- `DELETE /cars/{car_id}` in `src/main.py`. -/
def delete_car (s : DB) (car_id : String) : HResp × DB :=
  match dbGet s car_id with
  | none => (.err 404 (.text (notFoundMsg car_id)), s)
  | some _ => (.noContent, dbDel s car_id)

/-- Dispatch one operation, after the framework's body validation. -/
def step (s : DB) : Op → HResp × DB
  | .list => get_cars s
  | .get cid => get_car s cid
  | .create rnd now d =>
    if d.validB then create_car s rnd now d else (.err 422 .pydanticMsg, s)
  | .replace cid now d =>
    if d.validB then update_car s cid now d else (.err 422 .pydanticMsg, s)
  | .merge cid now p =>
    if p.validB then partial_update_car s cid now p else (.err 422 .pydanticMsg, s)
  | .delete cid => delete_car s cid

/-- Run a sequence of operations, collecting the responses. -/
def run (s : DB) : List Op → List HResp × DB
  | [] => ([], s)
  | op :: ops =>
    let r := step s op
    let rest := run r.2 ops
    (r.1 :: rest.1, rest.2)

end Standalone

namespace Routes

/-- `GET /cars` in `app/routes/cars.py`. -/
def get_cars (s : DB) : HResp × DB :=
  (.okList (CarService.get_all_cars s), s)

/-- `GET /cars/{car_id}` in `app/routes/cars.py`. -/
def get_car (s : DB) (car_id : String) : HResp × DB :=
  match CarService.get_car_by_id s car_id with
  | none => (.err 404 (.text (notFoundMsg car_id)), s)
  | some c => (.ok 200 c, s)

/-- `POST /cars` in `app/routes/cars.py`: returns the service result with
201; an exception from the service would propagate. -/
def create_car (s : DB) (rnd now : Nat) (d : CarInput) : HResp × DB :=
  match CarService.create_car s rnd now d with
  | (some c, s2) => (.ok 201 c, s2)
  | (none, s2) => (.serverError, s2)

/-- `PUT /cars/{car_id}` in `app/routes/cars.py`: 404 when the service
reports no record; a `ValidationError` would propagate uncaught. -/
def update_car (s : DB) (car_id : String) (now : Nat) (d : CarInput) : HResp × DB :=
  match CarService.update_car s car_id now d with
  | (.notFound, s2) => (.err 404 (.text (notFoundMsg car_id)), s2)
  | (.validationError, s2) => (.serverError, s2)
  | (.ok c, s2) => (.ok 200 c, s2)

/-- `PATCH /cars/{car_id}` in `app/routes/cars.py`: the route wraps the
service call in `except ValueError`, which catches both the empty-body
`ValueError` and any pydantic `ValidationError`, answering 400 with the
exception's message. -/
def partial_update_car (s : DB) (car_id : String) (now : Nat) (p : CarPartialUpdate) :
    HResp × DB :=
  match CarService.partial_update_car s car_id now p with
  | (.notFound, s2) => (.err 404 (.text (notFoundMsg car_id)), s2)
  | (.emptyUpdate, s2) => (.err 400 (.text "No fields provided for update"), s2)
  | (.validationError, s2) => (.err 400 .pydanticMsg, s2)
  | (.ok c, s2) => (.ok 200 c, s2)

/-- `DELETE /cars/{car_id}` in `app/routes/cars.py`. -/
def delete_car (s : DB) (car_id : String) : HResp × DB :=
  match CarService.delete_car s car_id with
  | (true, s2) => (.noContent, s2)
  | (false, s2) => (.err 404 (.text (notFoundMsg car_id)), s2)

/-- Dispatch one operation, after the framework's body validation. -/
def step (s : DB) : Op → HResp × DB
  | .list => get_cars s
  | .get cid => get_car s cid
  | .create rnd now d =>
    if d.validB then create_car s rnd now d else (.err 422 .pydanticMsg, s)
  | .replace cid now d =>
    if d.validB then update_car s cid now d else (.err 422 .pydanticMsg, s)
  | .merge cid now p =>
    if p.validB then partial_update_car s cid now p else (.err 422 .pydanticMsg, s)
  | .delete cid => delete_car s cid

/-- Run a sequence of operations, collecting the responses. -/
def run (s : DB) : List Op → List HResp × DB
  | [] => ([], s)
  | op :: ops =>
    let r := step s op
    let rest := run r.2 ops
    (r.1 :: rest.1, rest.2)

end Routes

/- ### Agreement between the two implementations -/

/-- Every record in the store satisfies the field constraints (holds in all
reachable stores, because `Car(...)` validates before any write). -/
def AllValid (s : DB) : Prop :=
  ∀ k c, (k, c) ∈ s → carFieldsValidB c.make c.model c.year c.color c.price = true

theorem AllValid_dbSet {s : DB} {k : String} {c : Car} (hAll : AllValid s)
    (hc : carFieldsValidB c.make c.model c.year c.color c.price = true) :
    AllValid (dbSet s k c) := by
  intro k2 c2 hm
  rcases mem_dbSet hm with ⟨_, rfl⟩ | hm2
  · exact hc
  · exact hAll _ _ hm2

theorem AllValid_dbDel {s : DB} {k : String} (hAll : AllValid s) : AllValid (dbDel s k) :=
  fun _ _ hm => hAll _ _ (mem_dbDel hm)

theorem providedOr_valid {α : Type} (f : Option (Option α)) (old : α) (q : α → Bool)
    (hn : isExplicitNull f = false) (hv : optFieldValid f q = true) (hold : q old = true) :
    ∃ v, providedOr f old = some v ∧ q v = true := by
  rcases f with _ | vo
  · exact ⟨old, rfl, hold⟩
  · rcases vo with _ | x
    · simp [isExplicitNull] at hn
    · exact ⟨x, rfl, by simpa [optFieldValid] using hv⟩

theorem hasNull_false_parts {p : CarPartialUpdate} (h : p.hasNull = false) :
    isExplicitNull p.make = false ∧ isExplicitNull p.model = false ∧
      isExplicitNull p.year = false ∧ isExplicitNull p.color = false ∧
      isExplicitNull p.price = false := by
  simp only [CarPartialUpdate.hasNull, Bool.or_eq_false_iff] at h
  exact ⟨h.1.1.1.1, h.1.1.1.2, h.1.1.2, h.1.2, h.2⟩

theorem get_cars_agree (s : DB) : Standalone.get_cars s = Routes.get_cars s := rfl

theorem get_car_agree (s : DB) (cid : String) :
    Standalone.get_car s cid = Routes.get_car s cid := rfl

theorem create_agree (s : DB) (rnd now : Nat) (d : CarInput) :
    Standalone.create_car s rnd now d = Routes.create_car s rnd now d := by
  rcases hmk : mkCar (uuidStr rnd) (some d.make) (some d.model) (some d.year) (some d.color)
      (some d.price) now now with _ | c <;>
    simp [Standalone.create_car, Routes.create_car, CarService.create_car, hmk]

theorem replace_agree (s : DB) (cid : String) (now : Nat) (d : CarInput) :
    Standalone.update_car s cid now d = Routes.update_car s cid now d := by
  rcases hdb : dbGet s cid with _ | old
  · simp [Standalone.update_car, Routes.update_car, CarService.update_car, hdb]
  · rcases hmk : mkCar cid (some d.make) (some d.model) (some d.year) (some d.color)
        (some d.price) old.created_at now with _ | c <;>
      simp [Standalone.update_car, Routes.update_car, CarService.update_car, hdb, hmk]

theorem delete_agree (s : DB) (cid : String) :
    Standalone.delete_car s cid = Routes.delete_car s cid := by
  rcases hdb : dbGet s cid with _ | c <;>
    simp [Standalone.delete_car, Routes.delete_car, CarService.delete_car, hdb]

theorem patch_snd_agree (s : DB) (cid : String) (now : Nat) (p : CarPartialUpdate) :
    (Standalone.partial_update_car s cid now p).2 = (Routes.partial_update_car s cid now p).2 := by
  rcases hdb : dbGet s cid with _ | old
  · simp [Standalone.partial_update_car, Routes.partial_update_car,
      CarService.partial_update_car, hdb]
  · by_cases he : p.isEmpty
    · simp [Standalone.partial_update_car, Routes.partial_update_car,
        CarService.partial_update_car, hdb, he]
    · rcases hmk : mkCar cid (providedOr p.make old.make) (providedOr p.model old.model)
          (providedOr p.year old.year) (providedOr p.color old.color)
          (providedOr p.price old.price) old.created_at now with _ | c <;>
        simp [Standalone.partial_update_car, Routes.partial_update_car,
          CarService.partial_update_car, hdb, he, hmk]

theorem patch_fst_agree (s : DB) (cid : String) (now : Nat) (p : CarPartialUpdate)
    (hAll : AllValid s) (hv : p.validB = true) (hn : p.hasNull = false) :
    (Standalone.partial_update_car s cid now p).1 = (Routes.partial_update_car s cid now p).1 := by
  rcases hdb : dbGet s cid with _ | old
  · simp [Standalone.partial_update_car, Routes.partial_update_car,
      CarService.partial_update_car, hdb]
  · by_cases he : p.isEmpty
    · simp [Standalone.partial_update_car, Routes.partial_update_car,
        CarService.partial_update_car, hdb, he]
    · obtain ⟨hn1, hn2, hn3, hn4, hn5⟩ := hasNull_false_parts hn
      simp only [CarPartialUpdate.validB, Bool.and_eq_true] at hv
      obtain ⟨⟨⟨⟨hv1, hv2⟩, hv3⟩, hv4⟩, hv5⟩ := hv
      have hold := hAll cid old (dbGet_mem hdb)
      simp only [carFieldsValidB, Bool.and_eq_true] at hold
      obtain ⟨⟨⟨⟨ho1, ho2⟩, ho3⟩, ho4⟩, ho5⟩ := hold
      obtain ⟨v1, hm1, hq1⟩ := providedOr_valid p.make old.make (validStrB 50) hn1 hv1 ho1
      obtain ⟨v2, hm2, hq2⟩ := providedOr_valid p.model old.model (validStrB 50) hn2 hv2 ho2
      obtain ⟨v3, hm3, hq3⟩ := providedOr_valid p.year old.year validYearB hn3 hv3 ho3
      obtain ⟨v4, hm4, hq4⟩ := providedOr_valid p.color old.color (validStrB 30) hn4 hv4 ho4
      obtain ⟨v5, hm5, hq5⟩ := providedOr_valid p.price old.price validPriceB hn5 hv5 ho5
      have hmk : mkCar cid (providedOr p.make old.make) (providedOr p.model old.model)
          (providedOr p.year old.year) (providedOr p.color old.color)
          (providedOr p.price old.price) old.created_at now =
          some (Car.mk cid v1 v2 v3 v4 v5 old.created_at now) := by
        rw [hm1, hm2, hm3, hm4, hm5]
        exact mkCar_all_some _ _ _ _ _ _ _ _
          (by simp [carFieldsValidB, hq1, hq2, hq3, hq4, hq5])
      simp [Standalone.partial_update_car, Routes.partial_update_car,
        CarService.partial_update_car, hdb, he, hmk]

theorem step_snd_agree (s : DB) (op : Op) :
    (Standalone.step s op).2 = (Routes.step s op).2 := by
  cases op with
  | list => rfl
  | get cid => rw [Standalone.step, Routes.step, get_car_agree]
  | create rnd now d =>
    by_cases hv : d.validB = true
    · simp only [Standalone.step, Routes.step]
      rw [if_pos hv, if_pos hv, create_agree]
    · simp only [Standalone.step, Routes.step]
      rw [if_neg hv, if_neg hv]
  | replace cid now d =>
    by_cases hv : d.validB = true
    · simp only [Standalone.step, Routes.step]
      rw [if_pos hv, if_pos hv, replace_agree]
    · simp only [Standalone.step, Routes.step]
      rw [if_neg hv, if_neg hv]
  | merge cid now p =>
    by_cases hv : p.validB = true
    · simp only [Standalone.step, Routes.step]
      rw [if_pos hv, if_pos hv]
      exact patch_snd_agree s cid now p
    · simp only [Standalone.step, Routes.step]
      rw [if_neg hv, if_neg hv]
  | delete cid => rw [Standalone.step, Routes.step, delete_agree]

theorem step_fst_agree (s : DB) (op : Op) (hAll : AllValid s) (hb : op.benign = true) :
    (Standalone.step s op).1 = (Routes.step s op).1 := by
  cases op with
  | list => rfl
  | get cid => rw [Standalone.step, Routes.step, get_car_agree]
  | create rnd now d =>
    by_cases hv : d.validB = true
    · simp only [Standalone.step, Routes.step]
      rw [if_pos hv, if_pos hv, create_agree]
    · simp only [Standalone.step, Routes.step]
      rw [if_neg hv, if_neg hv]
  | replace cid now d =>
    by_cases hv : d.validB = true
    · simp only [Standalone.step, Routes.step]
      rw [if_pos hv, if_pos hv, replace_agree]
    · simp only [Standalone.step, Routes.step]
      rw [if_neg hv, if_neg hv]
  | merge cid now p =>
    have hn : p.hasNull = false := by
      simpa [Op.benign, Bool.not_eq_true'] using hb
    by_cases hv : p.validB = true
    · simp only [Standalone.step, Routes.step]
      rw [if_pos hv, if_pos hv]
      exact patch_fst_agree s cid now p hAll hv hn
    · simp only [Standalone.step, Routes.step]
      rw [if_neg hv, if_neg hv]
  | delete cid => rw [Standalone.step, Routes.step, delete_agree]

theorem routes_get_snd (s : DB) (cid : String) : (Routes.get_car s cid).2 = s := by
  rcases hdb : CarService.get_car_by_id s cid with _ | c <;> simp [Routes.get_car, hdb]

theorem routes_create_snd (s : DB) (rnd now : Nat) (d : CarInput) :
    (Routes.create_car s rnd now d).2 = (CarService.create_car s rnd now d).2 := by
  rcases hcc : CarService.create_car s rnd now d with ⟨oc, s2⟩
  cases oc <;> simp [Routes.create_car, hcc]

theorem routes_update_snd (s : DB) (cid : String) (now : Nat) (d : CarInput) :
    (Routes.update_car s cid now d).2 = (CarService.update_car s cid now d).2 := by
  rcases hcc : CarService.update_car s cid now d with ⟨r, s2⟩
  cases r <;> simp [Routes.update_car, hcc]

theorem routes_patch_snd (s : DB) (cid : String) (now : Nat) (p : CarPartialUpdate) :
    (Routes.partial_update_car s cid now p).2 = (CarService.partial_update_car s cid now p).2 := by
  rcases hcc : CarService.partial_update_car s cid now p with ⟨r, s2⟩
  cases r <;> simp [Routes.partial_update_car, hcc]

theorem routes_delete_snd (s : DB) (cid : String) :
    (Routes.delete_car s cid).2 = (CarService.delete_car s cid).2 := by
  rcases hcc : CarService.delete_car s cid with ⟨b, s2⟩
  cases b <;> simp [Routes.delete_car, hcc]

theorem create_preserves_AllValid (s : DB) (rnd now : Nat) (d : CarInput) (hAll : AllValid s) :
    AllValid (CarService.create_car s rnd now d).2 := by
  rcases hmk : mkCar (uuidStr rnd) (some d.make) (some d.model) (some d.year) (some d.color)
      (some d.price) now now with _ | c0
  · have hs : (CarService.create_car s rnd now d).2 = s := by
      simp [CarService.create_car, hmk]
    rw [hs]
    exact hAll
  · have hs : (CarService.create_car s rnd now d).2 = dbSet s (uuidStr rnd) c0 := by
      simp [CarService.create_car, hmk]
    rw [hs]
    exact AllValid_dbSet hAll (mkCar_some hmk).2.2.2.2.2.2.2.2

theorem update_preserves_AllValid (s : DB) (cid : String) (now : Nat) (d : CarInput)
    (hAll : AllValid s) : AllValid (CarService.update_car s cid now d).2 := by
  rcases hdb : dbGet s cid with _ | old
  · have hs : (CarService.update_car s cid now d).2 = s := by
      simp [CarService.update_car, hdb]
    rw [hs]
    exact hAll
  · rcases hmk : mkCar cid (some d.make) (some d.model) (some d.year) (some d.color)
        (some d.price) old.created_at now with _ | c0
    · have hs : (CarService.update_car s cid now d).2 = s := by
        simp [CarService.update_car, hdb, hmk]
      rw [hs]
      exact hAll
    · have hs : (CarService.update_car s cid now d).2 = dbSet s cid c0 := by
        simp [CarService.update_car, hdb, hmk]
      rw [hs]
      exact AllValid_dbSet hAll (mkCar_some hmk).2.2.2.2.2.2.2.2

theorem patch_preserves_AllValid (s : DB) (cid : String) (now : Nat) (p : CarPartialUpdate)
    (hAll : AllValid s) : AllValid (CarService.partial_update_car s cid now p).2 := by
  rcases hdb : dbGet s cid with _ | old
  · have hs : (CarService.partial_update_car s cid now p).2 = s := by
      simp [CarService.partial_update_car, hdb]
    rw [hs]
    exact hAll
  · by_cases he : p.isEmpty
    · have hs : (CarService.partial_update_car s cid now p).2 = s := by
        simp [CarService.partial_update_car, hdb, he]
      rw [hs]
      exact hAll
    · rcases hmk : mkCar cid (providedOr p.make old.make) (providedOr p.model old.model)
          (providedOr p.year old.year) (providedOr p.color old.color)
          (providedOr p.price old.price) old.created_at now with _ | c0
      · have hs : (CarService.partial_update_car s cid now p).2 = s := by
          simp [CarService.partial_update_car, hdb, he, hmk]
        rw [hs]
        exact hAll
      · have hs : (CarService.partial_update_car s cid now p).2 = dbSet s cid c0 := by
          simp [CarService.partial_update_car, hdb, he, hmk]
        rw [hs]
        exact AllValid_dbSet hAll (mkCar_some hmk).2.2.2.2.2.2.2.2

theorem delete_preserves_AllValid (s : DB) (cid : String) (hAll : AllValid s) :
    AllValid (CarService.delete_car s cid).2 := by
  rcases delete_car_cases s cid with hdl | hdl <;> rw [hdl]
  · exact hAll
  · exact AllValid_dbDel hAll

theorem step_preserves_AllValid (s : DB) (op : Op) (hAll : AllValid s) :
    AllValid (Standalone.step s op).2 := by
  rw [step_snd_agree]
  cases op with
  | list => exact hAll
  | get cid =>
    rw [Routes.step, routes_get_snd]
    exact hAll
  | create rnd now d =>
    simp only [Routes.step]
    by_cases hv : d.validB = true
    · rw [if_pos hv, routes_create_snd]
      exact create_preserves_AllValid s rnd now d hAll
    · rw [if_neg hv]
      exact hAll
  | replace cid now d =>
    simp only [Routes.step]
    by_cases hv : d.validB = true
    · rw [if_pos hv, routes_update_snd]
      exact update_preserves_AllValid s cid now d hAll
    · rw [if_neg hv]
      exact hAll
  | merge cid now p =>
    simp only [Routes.step]
    by_cases hv : p.validB = true
    · rw [if_pos hv, routes_patch_snd]
      exact patch_preserves_AllValid s cid now p hAll
    · rw [if_neg hv]
      exact hAll
  | delete cid =>
    rw [Routes.step, routes_delete_snd]
    exact delete_preserves_AllValid s cid hAll

theorem run_snd_agree (ops : List Op) : ∀ s : DB,
    (Standalone.run s ops).2 = (Routes.run s ops).2 := by
  induction ops with
  | nil => intro s; rfl
  | cons op ops ih =>
    intro s
    simp only [Standalone.run, Routes.run]
    rw [step_snd_agree s op]
    exact ih _

theorem run_fst_agree (ops : List Op) : ∀ s : DB, AllValid s →
    (∀ op ∈ ops, op.benign = true) →
    (Standalone.run s ops).1 = (Routes.run s ops).1 := by
  induction ops with
  | nil => intro s _ _; rfl
  | cons op ops ih =>
    intro s hAll hb
    simp only [Standalone.run, Routes.run]
    rw [step_fst_agree s op hAll (hb op (List.mem_cons_self op ops)), step_snd_agree s op]
    have hrest := ih (Routes.step s op).2
      (by rw [← step_snd_agree s op]; exact step_preserves_AllValid s op hAll)
      (fun op2 hm => hb op2 (List.mem_cons_of_mem _ hm))
    rw [← step_snd_agree s op] at hrest
    rw [step_snd_agree s op] at hrest
    rw [hrest]

/-- C9 (counterexample): from the empty store, create a car and then PATCH
it with a body whose `make` is an explicit null.  The layered
implementation answers 400 (the route's `except ValueError` catches the
pydantic `ValidationError`), while the standalone implementation has no
such handler and surfaces an internal server error, so the two
implementations do not produce the same results on every operation
sequence. -/
theorem C9_counterexample :
    (Standalone.run []
        [Op.create 0 5 (CarInput.mk "Toyota" "Corolla" 2022 "blue" 20000),
          Op.merge (uuidStr 0) 6 (CarPartialUpdate.mk (some none) none none none none)]).1 ≠
      (Routes.run []
        [Op.create 0 5 (CarInput.mk "Toyota" "Corolla" 2022 "blue" 20000),
          Op.merge (uuidStr 0) 6 (CarPartialUpdate.mk (some none) none none none none)]).1 := by
  decide

/-- C9 (amended): over every operation sequence from the empty store, with
the same generated ids and timestamps, the standalone and the layered
implementations always produce the same final store state, and they
produce the same responses provided no merge body carries an explicit
null; on an explicit-null merge the standalone surfaces an internal server
error where the layered answers 400, and that is the only behavioural
difference at the car endpoints. -/
theorem C9_equiv (ops : List Op) :
    (Standalone.run [] ops).2 = (Routes.run [] ops).2 ∧
    ((∀ op ∈ ops, op.benign = true) →
      (Standalone.run [] ops).1 = (Routes.run [] ops).1) :=
  ⟨run_snd_agree ops [],
    fun hb => run_fst_agree ops [] (fun _ _ hm => nomatch hm) hb⟩

/-- Witness for C9: a create / merge / delete sequence without explicit
nulls on which both implementations answer identically. -/
theorem C9_equiv_witness :
    (Standalone.run []
        [Op.create 0 5 (CarInput.mk "Toyota" "Corolla" 2022 "blue" 20000),
          Op.merge (uuidStr 0) 6 (CarPartialUpdate.mk none none none (some (some "red")) none),
          Op.delete (uuidStr 0)]).1 =
      (Routes.run []
        [Op.create 0 5 (CarInput.mk "Toyota" "Corolla" 2022 "blue" 20000),
          Op.merge (uuidStr 0) 6 (CarPartialUpdate.mk none none none (some (some "red")) none),
          Op.delete (uuidStr 0)]).1 :=
  (C9_equiv
    [Op.create 0 5 (CarInput.mk "Toyota" "Corolla" 2022 "blue" 20000),
      Op.merge (uuidStr 0) 6 (CarPartialUpdate.mk none none none (some (some "red")) none),
      Op.delete (uuidStr 0)]).2 (by decide)
